import Mathlib

/-!
Shallow embedding of the Cap'n Proto schema model from
`src/capnp_model.rs` (crate `code-first-capnp`), together with the
numeric arm of `shape_to_capnp_type` from `src/lib.rs`.

Modelling conventions:
* Rust `u32` ids are modelled as `Nat` (no arithmetic is performed on
  ids, only equality tests and decimal formatting, which agree on the
  `u32` range).
* Rust `String` is Lean `String`; `format!` concatenations are spelled
  out with `++`.  Brace and apostrophe characters appearing in rendered
  text are written with `\x7b`, `\x7d` and `\x27` escapes.
* `CapnpStruct::validate` uses a `HashMap<u32, Vec<String>>` built with
  `entry(..).or_default().push(..)` and then iterates over it.  The map
  is modelled as an association list in key-insertion order: per-key
  location lists are in push order exactly as in Rust, and the
  unspecified `HashMap` iteration order is determinized to first-insertion
  order.  Every property proved below about the reported conflict is
  insensitive to that choice of order.
* Fallible Rust functions returning `Result<T, E>` become
  `Except E T`.
-/

/-- Error type for Cap'n Proto model validation (`ValidationError`). -/
inductive ValidationError where
  | DuplicateId (id : Nat) (locations : List String)
deriving DecidableEq

/-- Cap'n Proto types (`CapnpType`). -/
inductive CapnpType where
  | Bool
  | Int8
  | Int16
  | Int32
  | Int64
  | UInt8
  | UInt16
  | UInt32
  | UInt64
  | Float32
  | Float64
  | Text
  | Void
  | List (inner : CapnpType)
  | UserDefined (name : String)
deriving DecidableEq

/-- A field in a Cap'n Proto struct (`CapnpField`). -/
structure CapnpField where
  name : String
  id : Nat
  field_type : CapnpType
deriving DecidableEq

/-- The type of a union variant (`CapnpVariantType`); Rust constructor
`Type` is rendered `typ` here because `Type` is a Lean keyword. -/
inductive CapnpVariantType where
  | typ (ty : CapnpType)
  | group (fields : List CapnpField)
deriving DecidableEq

/-- A variant within a Cap'n Proto union (`CapnpUnionVariant`).  Note
that the `id` is mandatory (`u32`), for group variants as well. -/
structure CapnpUnionVariant where
  name : String
  id : Nat
  variant_type : CapnpVariantType
deriving DecidableEq

/-- A union within a Cap'n Proto struct (`CapnpUnion`). -/
structure CapnpUnion where
  variants : List CapnpUnionVariant
deriving DecidableEq

/-- A Cap'n Proto struct definition (`CapnpStruct`). -/
structure CapnpStruct where
  name : String
  fields : List CapnpField
  union : Option CapnpUnion
deriving DecidableEq

/-- Top-level items in a Cap'n Proto schema (`CapnpItem`). -/
inductive CapnpItem where
  | Struct (s : CapnpStruct)
deriving DecidableEq

/-- A complete Cap'n Proto schema document (`CapnpDocument`). -/
structure CapnpDocument where
  items : List CapnpItem
deriving DecidableEq

namespace CapnpType

/-- `CapnpType::render`. -/
def render : CapnpType → String
  | .Bool => "Bool"
  | .Int8 => "Int8"
  | .Int16 => "Int16"
  | .Int32 => "Int32"
  | .Int64 => "Int64"
  | .UInt8 => "UInt8"
  | .UInt16 => "UInt16"
  | .UInt32 => "UInt32"
  | .UInt64 => "UInt64"
  | .Float32 => "Float32"
  | .Float64 => "Float64"
  | .Text => "Text"
  | .Void => "Void"
  | .List inner => "List(" ++ inner.render ++ ")"
  | .UserDefined name => name

end CapnpType

namespace CapnpField

/-- `CapnpField::render`: `{} @{} :{};`. -/
def render (f : CapnpField) : String :=
  f.name ++ " @" ++ toString f.id ++ " :" ++ f.field_type.render ++ ";"

end CapnpField

namespace CapnpUnionVariant

/-- `CapnpUnionVariant::render`. -/
def render (v : CapnpUnionVariant) : String :=
  match v.variant_type with
  | .typ ty => v.name ++ " @" ++ toString v.id ++ " :" ++ ty.render ++ ";"
  | .group fields =>
      if fields.isEmpty then
        v.name ++ " :group @" ++ toString v.id ++ " \x7b\x7d;"
      else
        v.name ++ " :group @" ++ toString v.id ++ " \x7b\n" ++
          String.join (fields.map (fun f => "      " ++ f.render ++ "\n")) ++
          "    \x7d;"

end CapnpUnionVariant

namespace CapnpUnion

/-- `CapnpUnion::render`. -/
def render (u : CapnpUnion) : String :=
  "  union \x7b\n" ++
    String.join (u.variants.map (fun v => "    " ++ v.render ++ "\n")) ++
    "  \x7d\n"

end CapnpUnion

/-- One `(id, location)` occurrence recorded by `CapnpStruct::validate`
for a union variant: the variant itself always contributes a
`union variant '<name>'` entry, and a group variant additionally
contributes a `union group '<name>' field '<field name>'` entry per
inner field. -/
def variantEntries (v : CapnpUnionVariant) : List (Nat × String) :=
  (v.id, "union variant \x27" ++ v.name ++ "\x27") ::
    (match v.variant_type with
     | .typ _ => []
     | .group fields =>
         fields.map (fun f =>
           (f.id, "union group \x27" ++ v.name ++ "\x27 field \x27" ++ f.name ++ "\x27")))

/-- All `(id, location)` occurrences recorded by `CapnpStruct::validate`,
in the order the Rust code pushes them: top-level fields first, then for
each union variant its own entry followed by its group-field entries. -/
def collectEntries (s : CapnpStruct) : List (Nat × String) :=
  s.fields.map (fun f => (f.id, "struct field \x27" ++ f.name ++ "\x27")) ++
    (match s.union with
     | none => []
     | some u => (u.variants.map variantEntries).flatten)

/-- `entry(id).or_default().push(loc)` on the association-list model of
the `HashMap<u32, Vec<String>>`: append to the existing key's list, or
append a fresh key at the end. -/
def pushLoc (m : List (Nat × List String)) (id : Nat) (loc : String) :
    List (Nat × List String) :=
  match m with
  | [] => [(id, [loc])]
  | p :: rest =>
      if p.1 = id then (p.1, p.2 ++ [loc]) :: rest
      else p :: pushLoc rest id loc

/-- The `id_locations` map built by `CapnpStruct::validate`. -/
def idLocations (s : CapnpStruct) : List (Nat × List String) :=
  (collectEntries s).foldl (fun m p => pushLoc m p.1 p.2) []

namespace CapnpStruct

/-- `CapnpStruct::validate`: scan the struct, build `id_locations`, and
fail on the first id (in map order) with more than one location. -/
def validate (s : CapnpStruct) : Except ValidationError Unit :=
  match (idLocations s).find? (fun p => decide (1 < p.2.length)) with
  | some p => .error (.DuplicateId p.1 p.2)
  | none => .ok ()

/-- The schema text built by `CapnpStruct::render` (after the validation
guard succeeds). -/
def structText (s : CapnpStruct) : String :=
  "struct " ++ s.name ++ " \x7b\n" ++
    String.join (s.fields.map (fun f => "  " ++ f.render ++ "\n")) ++
    (match s.union with
     | none => ""
     | some u => u.render) ++
    "\x7d\n"

/-- `CapnpStruct::render`: validate, then emit the struct text. -/
def render (s : CapnpStruct) : Except ValidationError String :=
  match s.validate with
  | .error e => .error e
  | .ok _ => .ok (structText s)

end CapnpStruct

namespace CapnpItem

/-- `CapnpItem::render`. -/
def render : CapnpItem → Except ValidationError String
  | .Struct s => s.render

end CapnpItem

/-- Validation of a list of items in order, short-circuiting on the
first failing struct (the loop body of `CapnpDocument::validate`). -/
def validateItems : List CapnpItem → Except ValidationError Unit
  | [] => .ok ()
  | .Struct s :: rest =>
      match s.validate with
      | .error e => .error e
      | .ok _ => validateItems rest

/-- Rendering of the items after the first: each later item contributes
a separating newline followed by its text (`if i > 0 { writeln! }`). -/
def renderTail : List CapnpItem → Except ValidationError String
  | [] => .ok ""
  | i :: rest =>
      match i.render with
      | .error e => .error e
      | .ok t =>
          match renderTail rest with
          | .error e => .error e
          | .ok r => .ok ("\n" ++ t ++ r)

/-- Rendering of all items: the first item contributes its text with no
leading separator. -/
def renderAll : List CapnpItem → Except ValidationError String
  | [] => .ok ""
  | i :: rest =>
      match i.render with
      | .error e => .error e
      | .ok t =>
          match renderTail rest with
          | .error e => .error e
          | .ok r => .ok (t ++ r)

namespace CapnpDocument

/-- `CapnpDocument::validate`: validate every struct in item order. -/
def validate (d : CapnpDocument) : Except ValidationError Unit :=
  validateItems d.items

/-- `CapnpDocument::render`: validate first, then concatenate the items'
rendered text with one separating newline between consecutive items. -/
def render (d : CapnpDocument) : Except ValidationError String :=
  match d.validate with
  | .error e => .error e
  | .ok _ => renderAll d.items

end CapnpDocument

/-- The id space asserted by the original uniqueness claim, following
the spec's words for comparison with the source's `collectEntries`: ids
of the struct's own top-level fields, of its union's Type-kind variants
only, and of every field inside every Group-kind variant — a Group-kind
variant contributing no id of its own. -/
def specIdSpaceTypeOnly (s : CapnpStruct) : List Nat :=
  s.fields.map (fun f => f.id) ++
    (match s.union with
     | none => []
     | some u =>
         (u.variants.map (fun v =>
           match v.variant_type with
           | .typ _ => [v.id]
           | .group fields => fields.map (fun f => f.id))).flatten)

/-- The numeric primitive descriptor shapes consumed by the numeric arm
of `shape_to_capnp_type` in `src/lib.rs` (`NumericType`): an integer
with a signedness flag, or a float; the byte width comes from the
shape's layout and is passed separately. -/
inductive NumericType where
  | integer (signed : Bool)
  | float
deriving DecidableEq

/-- The numeric arm of `shape_to_capnp_type` (`src/lib.rs` lines
281-300): dispatch on the numeric kind and the layout size in bytes. -/
def shape_to_capnp_type_numeric (n : NumericType) (size_bytes : Nat) :
    Except String CapnpType :=
  match n with
  | .integer signed =>
      match size_bytes, signed with
      | 1, false => .ok .UInt8
      | 2, false => .ok .UInt16
      | 4, false => .ok .UInt32
      | 8, false => .ok .UInt64
      | 16, false => .error "UInt128 not supported in Cap\x27n Proto"
      | 1, true => .ok .Int8
      | 2, true => .ok .Int16
      | 4, true => .ok .Int32
      | 8, true => .ok .Int64
      | 16, true => .error "Int128 not supported in Cap\x27n Proto"
      | _, _ =>
          .error ("Unsupported integer size: " ++ toString size_bytes ++ " bytes")
  | .float =>
      match size_bytes with
      | 4 => .ok .Float32
      | 8 => .ok .Float64
      | _ =>
          .error ("Unsupported float size: " ++ toString size_bytes ++ " bytes")

/-- The numeric mapping table as the spec states it, for comparison
with the source's `shape_to_capnp_type_numeric`: integers of byte width
1, 2, 4 or 8 map to the matching signed/unsigned model type, floats of
byte width 4 or 8 map to Float32/Float64, and every other width is an
error (`none`). -/
def specNumericMapping (n : NumericType) (w : Nat) : Option CapnpType :=
  match n with
  | .integer s =>
      if w = 1 then some (if s then .Int8 else .UInt8)
      else if w = 2 then some (if s then .Int16 else .UInt16)
      else if w = 4 then some (if s then .Int32 else .UInt32)
      else if w = 8 then some (if s then .Int64 else .UInt64)
      else none
  | .float =>
      if w = 4 then some .Float32
      else if w = 8 then some .Float64
      else none

/-- The text an item contributes to a successful document render. -/
def itemText : CapnpItem → String
  | .Struct s => s.structText

/-- Concatenation of rendered item texts with a single separating
newline before every item after the first — the string built by the
loop in `CapnpDocument::render`. -/
def joinWithNewline : List String → String
  | [] => ""
  | t :: rest => t ++ String.join (rest.map (fun r => "\n" ++ r))

/-- Lookup of a key's location list in the association-list model
(first occurrence of the key). -/
def getLocs : List (Nat × List String) → Nat → List String
  | [], _ => []
  | p :: rest, k => if p.1 = k then p.2 else getLocs rest k

/-- All locations recorded for id `k` among the scanned occurrences, in
scan order. -/
def locsFor (es : List (Nat × String)) (k : Nat) : List String :=
  (es.filter (fun p => p.1 = k)).map Prod.snd

/-- The list of every id occurrence `CapnpStruct::validate` records:
ids of top-level fields, of all union variants (both kinds), and of all
fields inside group variants, with multiplicity. -/
def allIds (s : CapnpStruct) : List Nat :=
  (collectEntries s).map Prod.fst

theorem locsFor_nil (k : Nat) : locsFor [] k = [] := rfl

theorem locsFor_cons (p : Nat × String) (es : List (Nat × String)) (k : Nat) :
    locsFor (p :: es) k =
      (if p.1 = k then [p.2] else []) ++ locsFor es k := by
  rcases eq_or_ne p.1 k with h | h <;> simp [locsFor, List.filter_cons, h]

theorem getLocs_pushLoc (m : List (Nat × List String)) (id : Nat) (loc : String)
    (k : Nat) :
    getLocs (pushLoc m id loc) k =
      if k = id then getLocs m k ++ [loc] else getLocs m k := by
  induction m with
  | nil =>
      rcases eq_or_ne k id with h | h
      · subst h
        simp [pushLoc, getLocs]
      · simp [pushLoc, getLocs, h, Ne.symm h]
  | cons p rest ih =>
      rcases eq_or_ne p.1 id with hp | hp
      · subst hp
        rcases eq_or_ne k p.1 with hk | hk
        · subst hk
          simp [pushLoc, getLocs]
        · simp [pushLoc, getLocs, hk, Ne.symm hk]
      · rcases eq_or_ne p.1 k with hk | hk
        · subst hk
          simp [pushLoc, getLocs, hp, Ne.symm hp]
        · simp [pushLoc, getLocs, hp, hk, ih]

theorem mem_keys_pushLoc (m : List (Nat × List String)) (id : Nat) (loc : String)
    (k : Nat) :
    k ∈ (pushLoc m id loc).map Prod.fst ↔ k = id ∨ k ∈ m.map Prod.fst := by
  induction m with
  | nil => simp [pushLoc]
  | cons p rest ih =>
      rcases eq_or_ne p.1 id with hp | hp
      · subst hp
        simp [pushLoc]
        try tauto
      · simp [pushLoc, hp, ih]
        try tauto

theorem nodup_keys_pushLoc (m : List (Nat × List String)) (id : Nat) (loc : String)
    (h : (m.map Prod.fst).Nodup) :
    ((pushLoc m id loc).map Prod.fst).Nodup := by
  induction m with
  | nil => simp [pushLoc]
  | cons p rest ih =>
      simp only [List.map_cons, List.nodup_cons] at h
      rcases eq_or_ne p.1 id with hp | hp
      · subst hp
        have hrw : pushLoc (p :: rest) p.1 loc = (p.1, p.2 ++ [loc]) :: rest := by
          simp [pushLoc]
        rw [hrw]
        simp only [List.map_cons, List.nodup_cons]
        exact h
      · simp only [pushLoc, if_neg hp, List.map_cons, List.nodup_cons]
        refine ⟨?_, ih h.2⟩
        rw [mem_keys_pushLoc]
        rintro (hh | hh)
        · exact hp hh
        · exact h.1 hh

theorem getLocs_foldl (es : List (Nat × String))
    (m : List (Nat × List String)) (k : Nat) :
    getLocs (es.foldl (fun m p => pushLoc m p.1 p.2) m) k =
      getLocs m k ++ locsFor es k := by
  induction es generalizing m with
  | nil => simp [locsFor]
  | cons p es ih =>
      rw [List.foldl_cons, ih, getLocs_pushLoc]
      by_cases h : k = p.1
      · simp [locsFor, h, List.filter_cons]
      · have : ¬ p.1 = k := by omega
        simp [locsFor, h, List.filter_cons, this]

theorem mem_keys_foldl (es : List (Nat × String))
    (m : List (Nat × List String)) (k : Nat) :
    k ∈ ((es.foldl (fun m p => pushLoc m p.1 p.2) m).map Prod.fst) ↔
      k ∈ m.map Prod.fst ∨ k ∈ es.map Prod.fst := by
  induction es generalizing m with
  | nil => simp
  | cons p es ih =>
      rw [List.foldl_cons, ih, mem_keys_pushLoc]
      simp
      tauto

theorem nodup_keys_foldl (es : List (Nat × String))
    (m : List (Nat × List String)) (h : (m.map Prod.fst).Nodup) :
    (((es.foldl (fun m p => pushLoc m p.1 p.2) m)).map Prod.fst).Nodup := by
  induction es generalizing m with
  | nil => simpa
  | cons p es ih => exact ih _ (nodup_keys_pushLoc _ _ _ h)

theorem eq_getLocs_of_mem (m : List (Nat × List String))
    (h : (m.map Prod.fst).Nodup) (p : Nat × List String) (hp : p ∈ m) :
    p.2 = getLocs m p.1 := by
  induction m with
  | nil => cases hp
  | cons q rest ih =>
      simp only [List.map_cons, List.nodup_cons] at h
      rcases List.mem_cons.mp hp with h1 | h1
      · subst h1
        simp [getLocs]
      · have hne : ¬ q.1 = p.1 := by
          intro he
          exact h.1 (he ▸ List.mem_map_of_mem Prod.fst h1)
        simp [getLocs, hne, ih h.2 h1]

theorem getLocs_mem (m : List (Nat × List String)) (k : Nat)
    (h : k ∈ m.map Prod.fst) : (k, getLocs m k) ∈ m := by
  induction m with
  | nil => simp at h
  | cons q rest ih =>
      by_cases hq : q.1 = k
      · simp [getLocs, hq]
        left
        subst hq
        rfl
      · simp only [List.map_cons, List.mem_cons] at h
        rcases h with h | h
        · exact absurd h.symm hq
        · simp [getLocs, hq]
          exact Or.inr (ih h)

theorem getLocs_idLocations (s : CapnpStruct) (k : Nat) :
    getLocs (idLocations s) k = locsFor (collectEntries s) k := by
  rw [idLocations, getLocs_foldl]
  simp [getLocs]

theorem mem_keys_idLocations (s : CapnpStruct) (k : Nat) :
    k ∈ (idLocations s).map Prod.fst ↔ k ∈ allIds s := by
  rw [idLocations, mem_keys_foldl, allIds]
  simp

theorem nodup_keys_idLocations (s : CapnpStruct) :
    ((idLocations s).map Prod.fst).Nodup :=
  nodup_keys_foldl _ _ (by simp)

theorem snd_eq_locsFor_of_mem_idLocations (s : CapnpStruct)
    (p : Nat × List String) (hp : p ∈ idLocations s) :
    p.2 = locsFor (collectEntries s) p.1 := by
  rw [eq_getLocs_of_mem _ (nodup_keys_idLocations s) p hp,
    getLocs_idLocations]

theorem locsFor_eq_nil_iff (es : List (Nat × String)) (k : Nat) :
    locsFor es k = [] ↔ k ∉ es.map Prod.fst := by
  induction es with
  | nil => simp [locsFor]
  | cons p es ih =>
      by_cases h : p.1 = k
      · simp [locsFor, List.filter_cons, h]
      · simp [locsFor, List.filter_cons, h, Ne.symm h] at ih ⊢
        exact ih

theorem locsFor_length_le_one_iff_nodup (es : List (Nat × String)) :
    (∀ k, (locsFor es k).length ≤ 1) ↔ (es.map Prod.fst).Nodup := by
  induction es with
  | nil => simp [locsFor]
  | cons p es ih =>
      simp only [List.map_cons, List.nodup_cons]
      constructor
      · intro h
        have hlen : (locsFor es p.1).length = 0 := by
          have hp := h p.1
          rw [locsFor_cons, if_pos rfl, List.length_append,
            List.length_singleton] at hp
          omega
        refine ⟨?_, ih.mp fun k => ?_⟩
        · exact (locsFor_eq_nil_iff es p.1).mp (List.length_eq_zero.mp hlen)
        · have hk := h k
          rw [locsFor_cons] at hk
          rcases eq_or_ne p.1 k with hpk | hpk
          · subst hpk
            rw [hlen]
            omega
          · rw [if_neg hpk] at hk
            simpa using hk
      · rintro ⟨hnmem, hnd⟩ k
        rw [locsFor_cons]
        rcases eq_or_ne p.1 k with hpk | hpk
        · subst hpk
          rw [if_pos rfl, (locsFor_eq_nil_iff es p.1).mpr hnmem]
          simp
        · rw [if_neg hpk]
          simpa using ih.mpr hnd k

theorem validate_ok_iff_all_le_one (s : CapnpStruct) :
    s.validate = .ok () ↔ ∀ p ∈ idLocations s, p.2.length ≤ 1 := by
  constructor
  · intro h p hp
    unfold CapnpStruct.validate at h
    cases hf : (idLocations s).find? (fun p => decide (1 < p.2.length)) with
    | none =>
        rw [List.find?_eq_none] at hf
        have := hf p hp
        simpa using this
    | some q =>
        rw [hf] at h
        simp at h
  · intro h
    unfold CapnpStruct.validate
    cases hf : (idLocations s).find? (fun p => decide (1 < p.2.length)) with
    | none => rfl
    | some q =>
        exfalso
        have hq1 := List.find?_some hf
        have hq2 := List.mem_of_find?_eq_some hf
        have := h q hq2
        simp at hq1
        omega

theorem validate_error_iff (s : CapnpStruct) (i : Nat) (locs : List String) :
    s.validate = .error (.DuplicateId i locs) ↔
      (idLocations s).find? (fun p => decide (1 < p.2.length)) =
        some (i, locs) := by
  unfold CapnpStruct.validate
  cases hf : (idLocations s).find? (fun p => decide (1 < p.2.length)) with
  | none => simp
  | some p => simp [Prod.ext_iff]

/-- C1 counterexample: the claim's id space (top-level fields, Type-kind
variants, group fields — but not Group-kind variants' own ids) is
duplicate-free for a struct whose union holds two empty Group-kind
variants that share id 0, yet `CapnpStruct::validate` rejects that
struct: the source records a `union variant '<name>'` entry for every
variant, Group-kind included, so group variants' own ids do participate
in the uniqueness check. -/
theorem validate_group_ids_counterexample :
    (specIdSpaceTypeOnly
        ⟨"S", [], some ⟨[⟨"a", 0, .group []⟩, ⟨"b", 0, .group []⟩]⟩⟩).Nodup ∧
      CapnpStruct.validate
          ⟨"S", [], some ⟨[⟨"a", 0, .group []⟩, ⟨"b", 0, .group []⟩]⟩⟩ ≠
        .ok () := by
  constructor
  · decide
  · intro h
    have h2 :
        CapnpStruct.validate
            ⟨"S", [], some ⟨[⟨"a", 0, .group []⟩, ⟨"b", 0, .group []⟩]⟩⟩ =
          .error (.DuplicateId 0
            ["union variant \x27a\x27", "union variant \x27b\x27"]) := rfl
    rw [h2] at h
    exact Except.noConfusion h

/-- C1 (amended): `CapnpStruct::validate` returns `Ok` exactly when
every numeric id in the struct's full id space — its own top-level
fields, ALL of its union's variants (Type-kind and Group-kind alike:
every variant carries a mandatory id and contributes an entry for
itself), and every field inside every Group-kind variant — is
distinct. -/
theorem validate_ok_iff_allIds_nodup (s : CapnpStruct) :
    s.validate = .ok () ↔ (allIds s).Nodup := by
  rw [validate_ok_iff_all_le_one]
  have hn : (allIds s).Nodup ↔
      ∀ k, (locsFor (collectEntries s) k).length ≤ 1 :=
    (locsFor_length_le_one_iff_nodup (collectEntries s)).symm
  rw [hn]
  constructor
  · intro h k
    by_cases hk : k ∈ allIds s
    · have hk2 : k ∈ (idLocations s).map Prod.fst :=
        (mem_keys_idLocations s k).mpr hk
      have hmem := getLocs_mem _ _ hk2
      have := h _ hmem
      rw [getLocs_idLocations] at this
      exact this
    · rw [allIds] at hk
      rw [(locsFor_eq_nil_iff _ _).mpr hk]
      simp
  · intro h p hp
    rw [snd_eq_locsFor_of_mem_idLocations s p hp]
    exact h p.1

/-- C9: whenever `CapnpStruct::validate` returns a `DuplicateId` error,
its location list has at least two entries, and every location string
in it is one the scan recorded for exactly the reported id (a top-level
field, a union variant, or a union-group field bearing that id). -/
theorem duplicate_error_locations_sound (s : CapnpStruct) (i : Nat)
    (locs : List String)
    (h : s.validate = .error (.DuplicateId i locs)) :
    2 ≤ locs.length ∧ ∀ loc ∈ locs, (i, loc) ∈ collectEntries s := by
  rw [validate_error_iff] at h
  have hpred := List.find?_some h
  have hmem := List.mem_of_find?_eq_some h
  have hsnd := snd_eq_locsFor_of_mem_idLocations s (i, locs) hmem
  simp only at hsnd
  constructor
  · simp at hpred
    omega
  · intro loc hloc
    rw [hsnd, locsFor] at hloc
    obtain ⟨p, hp, hp2⟩ := List.mem_map.mp hloc
    have hp3 := List.mem_filter.mp hp
    have hp4 : p.1 = i := by simpa using hp3.2
    have : p = (i, loc) := by
      cases p
      simp at hp2 hp4
      simp [hp2, hp4]
    rw [← this]
    exact hp3.1

/-- C9 witness: a struct with two fields sharing id 0 yields a
`DuplicateId` error whose two locations both carry id 0. -/
theorem duplicate_error_locations_sound_witness :
    2 ≤ (["struct field \x27x\x27", "struct field \x27y\x27"] : List String).length ∧
      ∀ loc ∈ (["struct field \x27x\x27", "struct field \x27y\x27"] : List String),
        (0, loc) ∈ collectEntries ⟨"D", [⟨"x", 0, .UInt32⟩, ⟨"y", 0, .Text⟩], none⟩ :=
  duplicate_error_locations_sound
    ⟨"D", [⟨"x", 0, .UInt32⟩, ⟨"y", 0, .Text⟩], none⟩ 0
    ["struct field \x27x\x27", "struct field \x27y\x27"] (by rfl)

/-- C3: any `DuplicateId` error from `CapnpStruct::validate` reports,
for the conflicting id, the list of ALL locations the scan recorded for
that id (in scan order, not just two of them); and for a struct in
which exactly one id has exactly two recorded locations while every
other id has at most one, validate fails with precisely that id and
precisely those two location strings. -/
theorem validate_reports_all_locations (s : CapnpStruct) :
    (∀ i locs, s.validate = .error (.DuplicateId i locs) →
        locs = locsFor (collectEntries s) i) ∧
      ∀ k l1 l2, locsFor (collectEntries s) k = [l1, l2] →
        (∀ k2, k2 ≠ k → (locsFor (collectEntries s) k2).length ≤ 1) →
        s.validate = .error (.DuplicateId k [l1, l2]) := by
  constructor
  · intro i locs h
    rw [validate_error_iff] at h
    have hmem := List.mem_of_find?_eq_some h
    exact snd_eq_locsFor_of_mem_idLocations s (i, locs) hmem
  · intro k l1 l2 hk hrest
    have hkmem : k ∈ allIds s := by
      rw [allIds]
      by_contra hc
      rw [← locsFor_eq_nil_iff] at hc
      rw [hc] at hk
      exact List.noConfusion hk
    have hk2 : k ∈ (idLocations s).map Prod.fst :=
      (mem_keys_idLocations s k).mpr hkmem
    have hmem := getLocs_mem _ _ hk2
    rw [getLocs_idLocations, hk] at hmem
    rw [validate_error_iff]
    cases hf : (idLocations s).find? (fun p => decide (1 < p.2.length)) with
    | none =>
        exfalso
        rw [List.find?_eq_none] at hf
        have := hf _ hmem
        simp at this
    | some q =>
        have hq1 := List.find?_some hf
        have hq2 := List.mem_of_find?_eq_some hf
        have hqsnd := snd_eq_locsFor_of_mem_idLocations s q hq2
        rcases eq_or_ne q.1 k with hqk | hqk
        · have hq3 : q = (k, [l1, l2]) := by
            cases q
            simp at hqk hqsnd ⊢
            subst hqk
            rw [hqsnd, hk]
            simp
          rw [hq3]
        · exfalso
          have := hrest q.1 hqk
          rw [← hqsnd] at this
          simp at hq1
          omega

/-- C3 witness: in a struct whose only id clash is fields `x` and `y`
both bearing id 0, validate fails with id 0 and exactly those two
locations. -/
theorem validate_reports_all_locations_witness :
    CapnpStruct.validate ⟨"D2", [⟨"x", 0, .Bool⟩, ⟨"y", 0, .Text⟩], none⟩ =
      .error (.DuplicateId 0
        ["struct field \x27x\x27", "struct field \x27y\x27"]) :=
  (validate_reports_all_locations
      ⟨"D2", [⟨"x", 0, .Bool⟩, ⟨"y", 0, .Text⟩], none⟩).2 0
    "struct field \x27x\x27" "struct field \x27y\x27" (by rfl)
    (by
      intro k2 hk2
      have hc : collectEntries ⟨"D2", [⟨"x", 0, .Bool⟩, ⟨"y", 0, .Text⟩], none⟩ =
          [(0, "struct field \x27x\x27"), (0, "struct field \x27y\x27")] := rfl
      rw [hc, locsFor_cons, locsFor_cons, locsFor_nil,
        if_neg (fun h => hk2 h.symm), if_neg (fun h => hk2 h.symm)]
      simp)

theorem join_cons (a : String) (l : List String) :
    String.join (a :: l) = a ++ String.join l := by
  apply String.ext
  simp [String.data_join, String.data_append]

theorem validateItems_ok_iff (items : List CapnpItem) :
    validateItems items = .ok () ↔
      ∀ s, CapnpItem.Struct s ∈ items → s.validate = .ok () := by
  induction items with
  | nil => simp [validateItems]
  | cons i rest ih =>
      cases i with
      | Struct s =>
          constructor
          · intro h s2 hs2
            simp only [validateItems] at h
            cases hs : s.validate with
            | error e => rw [hs] at h; exact Except.noConfusion h
            | ok u =>
                cases u
                rw [hs] at h
                rcases List.mem_cons.mp hs2 with h2 | h2
                · cases h2
                  exact hs
                · exact ih.mp h s2 h2
          · intro h
            simp only [validateItems]
            rw [h s (List.mem_cons_self _ _)]
            exact ih.mpr fun s2 h2 => h s2 (List.mem_cons.mpr (Or.inr h2))

theorem validateItems_error (items : List CapnpItem) (e : ValidationError)
    (h : validateItems items = .error e) :
    ∃ pre s post, items = pre ++ CapnpItem.Struct s :: post ∧
      (∀ s2, CapnpItem.Struct s2 ∈ pre → s2.validate = .ok ()) ∧
      s.validate = .error e := by
  induction items with
  | nil => exact Except.noConfusion h
  | cons i rest ih =>
      cases i with
      | Struct s =>
          simp only [validateItems] at h
          cases hs : s.validate with
          | error e2 =>
              rw [hs] at h
              cases h
              exact ⟨[], s, rest, rfl, by simp, hs⟩
          | ok u =>
              cases u
              rw [hs] at h
              obtain ⟨pre, s2, post, h1, h2, h3⟩ := ih h
              refine ⟨CapnpItem.Struct s :: pre, s2, post, by rw [h1]; rfl, ?_, h3⟩
              intro s3 h4
              rcases List.mem_cons.mp h4 with h5 | h5
              · cases h5
                exact hs
              · exact h2 s3 h5

theorem struct_render_ok (s : CapnpStruct) (h : s.validate = .ok ()) :
    s.render = .ok s.structText := by
  unfold CapnpStruct.render
  rw [h]

theorem renderTail_ok (items : List CapnpItem)
    (h : ∀ s, CapnpItem.Struct s ∈ items → s.validate = .ok ()) :
    renderTail items = .ok (String.join (items.map (fun i => "\n" ++ itemText i))) := by
  induction items with
  | nil => simp [renderTail, String.join]
  | cons i rest ih =>
      cases i with
      | Struct s =>
          have hs : s.validate = .ok () := h s (List.mem_cons_self _ _)
          have hrest := ih fun s2 h2 => h s2 (List.mem_cons.mpr (Or.inr h2))
          simp only [renderTail, CapnpItem.render, struct_render_ok s hs, hrest]
          simp [itemText, join_cons]

theorem renderAll_ok (items : List CapnpItem)
    (h : ∀ s, CapnpItem.Struct s ∈ items → s.validate = .ok ()) :
    renderAll items = .ok (joinWithNewline (items.map itemText)) := by
  cases items with
  | nil => simp [renderAll, joinWithNewline]
  | cons i rest =>
      cases i with
      | Struct s =>
          have hs : s.validate = .ok () := h s (List.mem_cons_self _ _)
          have hrest := renderTail_ok rest fun s2 h2 =>
            h s2 (List.mem_cons.mpr (Or.inr h2))
          simp only [renderAll, CapnpItem.render, struct_render_ok s hs, hrest]
          have hjoin :
              joinWithNewline (List.map itemText (CapnpItem.Struct s :: rest)) =
                s.structText ++
                  String.join (rest.map (fun i => "\n" ++ itemText i)) := by
            simp only [List.map_cons, joinWithNewline, itemText, List.map_map]
            rfl
          rw [hjoin]

/-- C2: `CapnpDocument::render` returns an error exactly when
`CapnpDocument::validate` does, and it is the very same `DuplicateId`
error — the one produced by the first failing struct in item order
(every struct before it validates); on failure no rendered text is
produced, only the error value. -/
theorem render_error_iff_validate_error (d : CapnpDocument)
    (e : ValidationError) :
    (d.render = .error e ↔ d.validate = .error e) ∧
      (d.validate = .error e →
        ∃ pre s post, d.items = pre ++ CapnpItem.Struct s :: post ∧
          (∀ s2, CapnpItem.Struct s2 ∈ pre → s2.validate = .ok ()) ∧
          s.validate = .error e) := by
  constructor
  · constructor
    · intro h
      cases hv : d.validate with
      | error e2 =>
          have hr : d.render = .error e2 := by
            unfold CapnpDocument.render
            rw [hv]
          rw [hr] at h
          cases h
          rfl
      | ok u =>
          cases u
          exfalso
          have hall := (validateItems_ok_iff d.items).mp hv
          have hr : d.render = .ok (joinWithNewline (d.items.map itemText)) := by
            unfold CapnpDocument.render
            rw [hv]
            exact renderAll_ok d.items hall
          rw [hr] at h
          exact Except.noConfusion h
    · intro h
      unfold CapnpDocument.render
      rw [h]
  · exact validateItems_error d.items e

/-- C2 witness: a document whose first struct is valid and whose second
struct repeats id 1 renders to exactly the validation error, with the
failing struct preceded only by validating structs. -/
theorem render_error_iff_validate_error_witness :
    CapnpDocument.render
        ⟨[.Struct ⟨"Good", [⟨"a", 0, .UInt32⟩], none⟩,
          .Struct ⟨"Bad", [⟨"b", 1, .UInt32⟩, ⟨"c", 1, .Text⟩], none⟩]⟩ =
      .error (.DuplicateId 1
        ["struct field \x27b\x27", "struct field \x27c\x27"]) :=
  (render_error_iff_validate_error
      ⟨[.Struct ⟨"Good", [⟨"a", 0, .UInt32⟩], none⟩,
        .Struct ⟨"Bad", [⟨"b", 1, .UInt32⟩, ⟨"c", 1, .Text⟩], none⟩]⟩
      (.DuplicateId 1
        ["struct field \x27b\x27", "struct field \x27c\x27"])).1.mpr (by rfl)

/-- C8: if every struct in a document validates on its own, then
document-level validation succeeds; id uniqueness is checked per
struct, never across structs (see the witness, where two different
structs share id 0). -/
theorem document_validate_per_struct (d : CapnpDocument)
    (h : ∀ s, CapnpItem.Struct s ∈ d.items → s.validate = .ok ()) :
    d.validate = .ok () :=
  (validateItems_ok_iff d.items).mpr h

/-- C8 witness: a document whose two structs both use id 0 validates
successfully. -/
theorem document_validate_per_struct_witness :
    CapnpDocument.validate
        ⟨[.Struct ⟨"A", [⟨"x", 0, .UInt32⟩], none⟩,
          .Struct ⟨"B", [⟨"y", 0, .Text⟩], none⟩]⟩ = .ok () :=
  document_validate_per_struct
    ⟨[.Struct ⟨"A", [⟨"x", 0, .UInt32⟩], none⟩,
      .Struct ⟨"B", [⟨"y", 0, .Text⟩], none⟩]⟩
    (by
      intro s hs
      simp at hs
      rcases hs with h | h
      · rw [h]
        rfl
      · rw [h]
        rfl)

/-- C10: a document with no items renders successfully to exactly the
empty string. -/
theorem empty_document_renders_empty :
    CapnpDocument.render ⟨[]⟩ = .ok "" := rfl

/-- C4: the Person struct with fields id/fullName/numbers/active (ids
0-3) renders exactly the expected schema text. -/
theorem person_render_exact :
    CapnpStruct.render
        ⟨"Person",
          [⟨"id", 0, .UInt64⟩, ⟨"fullName", 1, .Text⟩,
           ⟨"numbers", 2, .List .Int32⟩, ⟨"active", 3, .Bool⟩], none⟩ =
      .ok "struct Person \x7b\n  id @0 :UInt64;\n  fullName @1 :Text;\n  numbers @2 :List(Int32);\n  active @3 :Bool;\n\x7d\n" := by
  rfl

/-- C5: a Group-kind union variant with no fields renders as
`<name> :group @<id> {};`, and one with fields renders as
`<name> :group @<id> {` newline, one member-field line per field
indented one further level (six spaces), then closing `};`.  In this
model, as in the source, every variant carries a mandatory numeric id,
so the spec's "omit `@<id>` when no id was assigned" case is vacuous:
the `@<id>` token is always present. -/
theorem group_variant_render_shapes (name : String) (id : Nat) :
    (CapnpUnionVariant.render ⟨name, id, .group []⟩ =
        name ++ " :group @" ++ toString id ++ " \x7b\x7d;") ∧
      ∀ fields : List CapnpField, fields ≠ [] →
        CapnpUnionVariant.render ⟨name, id, .group fields⟩ =
          name ++ " :group @" ++ toString id ++ " \x7b\n" ++
            String.join (fields.map (fun f => "      " ++ f.render ++ "\n")) ++
            "    \x7d;" := by
  constructor
  · rfl
  · intro fields hf
    cases fields with
    | nil => exact absurd rfl hf
    | cons f fs => rfl

/-- C5 witness: concrete renderings of an empty and a one-field group
variant named `g` with id 5. -/
theorem group_variant_render_shapes_witness :
    (CapnpUnionVariant.render ⟨"g", 5, .group []⟩ =
        "g" ++ " :group @" ++ toString 5 ++ " \x7b\x7d;") ∧
      CapnpUnionVariant.render ⟨"g", 5, .group [⟨"a", 0, .UInt64⟩]⟩ =
        "g" ++ " :group @" ++ toString 5 ++ " \x7b\n" ++
          String.join (([⟨"a", 0, .UInt64⟩] : List CapnpField).map
            (fun f => "      " ++ f.render ++ "\n")) ++
          "    \x7d;" :=
  ⟨(group_variant_render_shapes "g" 5).1,
   (group_variant_render_shapes "g" 5).2 [⟨"a", 0, .UInt64⟩] (by simp)⟩

/-- C6: the numeric arm of `shape_to_capnp_type` agrees with the spec's
mapping table: integers of byte width 1, 2, 4, 8 map to the matching
signed/unsigned model type, floats of byte width 4, 8 map to
Float32/Float64, and every other width (16-byte integers included) is
an error — `Except.toOption` is `none` exactly on the error cases. -/
theorem numeric_mapping_matches_spec (n : NumericType) (w : Nat) :
    (shape_to_capnp_type_numeric n w).toOption = specNumericMapping n w := by
  cases n with
  | integer s =>
      cases s <;>
        rcases w with _|_|_|_|_|_|_|_|_|_|_|_|_|_|_|_|_|w <;> rfl
  | float =>
      rcases w with _|_|_|_|_|_|_|_|_|_|_|_|_|_|_|_|_|w <;> rfl

theorem join_ends_brace (ts : List String)
    (h : ∀ t ∈ ts, ∃ p, t = p ++ "\x7d\n") (hne : ts ≠ []) :
    ∃ p, String.join ts = p ++ "\x7d\n" := by
  induction ts with
  | nil => exact absurd rfl hne
  | cons t rest ih =>
      rw [join_cons]
      cases rest with
      | nil =>
          obtain ⟨p, hp⟩ := h t (List.mem_cons_self _ _)
          refine ⟨p, ?_⟩
          rw [show String.join ([] : List String) = "" from rfl,
            String.append_empty, hp]
      | cons r rs =>
          obtain ⟨p, hp⟩ :=
            ih (fun t2 h2 => h t2 (List.mem_cons.mpr (Or.inr h2))) (by simp)
          refine ⟨t ++ p, ?_⟩
          rw [hp, String.append_assoc]

/-- C7: for a document whose items all validate, rendering succeeds and
the output is the items' texts joined with a single newline inserted
before every item after the first; every item's text has the shape
`struct <...>}\n` — it starts with a non-blank line and ends in a
closing brace followed by exactly one newline — so consecutive items
are separated by exactly one blank line (the trailing newline of one
item plus the single inserted separator), and the document as a whole
starts with `struct ` (no leading blank line) and ends with `}\n` (no
trailing blank line), as the last two conjuncts state explicitly. -/
theorem document_render_blank_line_separation (d : CapnpDocument)
    (h : d.validate = .ok ()) :
    d.render = .ok (joinWithNewline (d.items.map itemText)) ∧
      (∀ i ∈ d.items, ∃ mid, itemText i = "struct " ++ mid ++ "\x7d\n") ∧
      (d.items ≠ [] →
        ∃ t1 t2, d.render = .ok ("struct " ++ t1) ∧
          d.render = .ok (t2 ++ "\x7d\n")) := by
  have hall := (validateItems_ok_iff d.items).mp h
  have hrender : d.render = .ok (joinWithNewline (d.items.map itemText)) := by
    unfold CapnpDocument.render
    rw [h]
    exact renderAll_ok d.items hall
  have hitem : ∀ i ∈ d.items, ∃ mid, itemText i = "struct " ++ mid ++ "\x7d\n" := by
    intro i hi
    cases i with
    | Struct s =>
        refine ⟨s.name ++ (" \x7b\n" ++
          (String.join (s.fields.map (fun f => "  " ++ f.render ++ "\n")) ++
            (match s.union with | none => "" | some u => u.render))), ?_⟩
        apply String.ext
        simp [itemText, CapnpStruct.structText, String.data_append]
  refine ⟨hrender, hitem, ?_⟩
  intro hne
  cases hd : d.items with
  | nil => exact absurd hd hne
  | cons i rest =>
      have hi : i ∈ d.items := by
        rw [hd]
        exact List.mem_cons_self _ _
      obtain ⟨mid, hmid⟩ := hitem i hi
      have hjoin : joinWithNewline ((i :: rest).map itemText) =
          itemText i ++ String.join (rest.map (fun j => "\n" ++ itemText j)) := by
        simp only [List.map_cons, joinWithNewline, List.map_map]
        rfl
      rw [hd, hjoin] at hrender
      have hstart : d.render = .ok ("struct " ++ (mid ++ ("\x7d\n" ++
          String.join (rest.map (fun j => "\n" ++ itemText j))))) := by
        rw [hrender]
        have he : itemText i ++
            String.join (rest.map (fun j => "\n" ++ itemText j)) =
              "struct " ++ (mid ++ ("\x7d\n" ++
                String.join (rest.map (fun j => "\n" ++ itemText j)))) := by
          apply String.ext
          simp [hmid, String.data_append]
        rw [he]
      have hend : ∃ t2, d.render = .ok (t2 ++ "\x7d\n") := by
        cases rest with
        | nil =>
            refine ⟨"struct " ++ mid, ?_⟩
            rw [hrender]
            have he : itemText i ++
                String.join (List.map (fun j => "\n" ++ itemText j) []) =
                  ("struct " ++ mid) ++ "\x7d\n" := by
              apply String.ext
              simp [hmid, String.data_append]
            rw [he]
        | cons r rs =>
            obtain ⟨p, hp⟩ := join_ends_brace
              ((r :: rs).map (fun j => "\n" ++ itemText j))
              (by
                intro t ht
                obtain ⟨j, hj, hjt⟩ := List.mem_map.mp ht
                have hjmem : j ∈ d.items := by
                  rw [hd]
                  exact List.mem_cons.mpr (Or.inr hj)
                obtain ⟨mj, hmj⟩ := hitem j hjmem
                refine ⟨"\n" ++ ("struct " ++ mj), ?_⟩
                rw [← hjt]
                apply String.ext
                simp [hmj, String.data_append])
              (by simp)
            refine ⟨itemText i ++ p, ?_⟩
            rw [hrender, hp, ← String.append_assoc]
      obtain ⟨t2, ht2⟩ := hend
      exact ⟨mid ++ ("\x7d\n" ++
        String.join (rest.map (fun j => "\n" ++ itemText j))), t2, hstart, ht2⟩

/-- C7 witness: a two-struct document that validates renders to the
newline-joined item texts, each of shape `struct <...>}\n`, with the
whole output starting in `struct ` and ending in a brace-newline. -/
theorem document_render_blank_line_separation_witness :
    CapnpDocument.render
        ⟨[.Struct ⟨"A", [⟨"x", 0, .Bool⟩], none⟩, .Struct ⟨"B", [], none⟩]⟩ =
        .ok (joinWithNewline
          ((⟨[.Struct ⟨"A", [⟨"x", 0, .Bool⟩], none⟩,
              .Struct ⟨"B", [], none⟩]⟩ : CapnpDocument).items.map itemText)) ∧
      (∀ i ∈ (⟨[.Struct ⟨"A", [⟨"x", 0, .Bool⟩], none⟩,
          .Struct ⟨"B", [], none⟩]⟩ : CapnpDocument).items,
        ∃ mid, itemText i = "struct " ++ mid ++ "\x7d\n") ∧
      ((⟨[.Struct ⟨"A", [⟨"x", 0, .Bool⟩], none⟩,
          .Struct ⟨"B", [], none⟩]⟩ : CapnpDocument).items ≠ [] →
        ∃ t1 t2,
          CapnpDocument.render
              ⟨[.Struct ⟨"A", [⟨"x", 0, .Bool⟩], none⟩,
                .Struct ⟨"B", [], none⟩]⟩ = .ok ("struct " ++ t1) ∧
            CapnpDocument.render
                ⟨[.Struct ⟨"A", [⟨"x", 0, .Bool⟩], none⟩,
                  .Struct ⟨"B", [], none⟩]⟩ = .ok (t2 ++ "\x7d\n")) :=
  document_render_blank_line_separation
    ⟨[.Struct ⟨"A", [⟨"x", 0, .Bool⟩], none⟩, .Struct ⟨"B", [], none⟩]⟩
    (by rfl)
